import Mathlib

/-!
Verification development for the ihme-ui choropleth subsystem.

The definitions below are a shallow embedding of
src/ui/choropleth/src/choropleth.jsx and
src/ui/responsive-container/src/index.jsx.
Numbers are modelled as exact rationals.  JavaScript object-reference
identity (the !== checks in componentWillReceiveProps) is modelled by
explicit reference fields (Nat ids) carried alongside the content, and
by structural equality on the topology value (distinct references are
modelled as structurally distinct values).

Utility functions imported from ../../../utils (calcScale, calcTranslate,
calcCenterPoint, extractGeoJSON, concatAndComputeGeoJSONBounds,
propResolver, quickMerge) are repository code that is not part of the
provided sources; each is modelled from the spec and marked as such in
its doc comment.  Third-party library behavior (lodash keyBy, lodash
memoize, d3 zoom scaleBy clamping, topojson presimplify) is modelled
after the documented semantics of those libraries.
-/

namespace IhmeUI

/-- Bounding box in the shared coordinate space:
    ((minX, minY), (maxX, maxY)). -/
abbrev Bounds : Type := (ℚ × ℚ) × (ℚ × ℚ)

/-- Layer type tag: polygon feature collections or boundary meshes. -/
inductive LayerType where
  | feature : LayerType
  | mesh : LayerType
deriving DecidableEq, Repr

/-- An ihme-ui layer descriptor, as described by Choropleth.propTypes.
    The style, selectedStyle, className and selectedClassName props are
    opaque to the state machine and are modelled by reference ids;
    filterFn is likewise modelled by the identity of the optional mesh
    filter function. -/
structure Layer where
  name : String
  type : LayerType
  object : String
  visible : Bool
  filterFn : Option Nat
  styleRef : Nat
  selectedStyleRef : Nat
  classNameRef : Nat
  selectedClassNameRef : Nat
deriving DecidableEq, Repr

/-- A topojson topology.  The component only ever reads it through
    extraction, so it is modelled by a reference id plus the bounding box
    of each named object collection.  Structural equality on this type
    models JavaScript reference identity. -/
structure Topology where
  id : Nat
  objects : List (String × Bounds)
deriving DecidableEq

/-- Modelled from the spec: topojson presimplification is performed once
    per distinct topology reference and attaches simplification weights;
    none of the claims depend on the weights themselves, so it is the
    identity on the abstract topology. -/
def presimplify (t : Topology) : Topology := t

/-- Extracted geometry for one layer.  The record fields identify the
    extraction inputs (topology, object collection, mesh flag, filter
    identity) — extraction is a deterministic function of these — and
    carry the bounding box used by the bounds calculator. -/
structure Geometry where
  topoId : Nat
  objectName : String
  isMesh : Bool
  filterId : Option Nat
  bbox : Bounds
deriving DecidableEq, Repr

/-- Insert a binding into an association list, overwriting the value of
    an existing binding with the same key in place (the semantics of
    assigning a property on a JavaScript object). -/
def insertOverwrite {α : Type} (m : List (String × α)) (k : String) (v : α) :
    List (String × α) :=
  match m with
  | [] => [(k, v)]
  | (k₁, v₁) :: rest =>
      if k₁ = k then (k, v) :: rest else (k₁, v₁) :: insertOverwrite rest k v

/-- The geometry cache: one association list per layer type, keyed by
    layer name, mirroring the shape { feature: {...}, mesh: {...} }. -/
structure Extracted where
  feature : List (String × Geometry)
  mesh : List (String × Geometry)
deriving DecidableEq, Repr

def emptyExtracted : Extracted := { feature := [], mesh := [] }

/-- Modelled from the spec: extract(topology, layers) resolves
    topology.objects[layer.object] and converts it to a feature
    collection or a boundary mesh (optionally filtered by filterFn).
    The output is a deterministic function of the topology and of the
    extraction parameters of the layer. -/
def extractLayerGeometry (topology : Topology) (layer : Layer) : Geometry :=
  { topoId := topology.id
    objectName := layer.object
    isMesh := layer.type == LayerType.mesh
    filterId := layer.filterFn
    bbox := ((topology.objects.lookup layer.object).getD ((0, 0), (0, 0))) }

/-- One step of geometry extraction: store the geometry of one layer
    under its name in the collection matching the layer type. -/
def extractStep (topology : Topology) (acc : Extracted) (layer : Layer) :
    Extracted :=
  match layer.type with
  | LayerType.feature =>
      { acc with
          feature := insertOverwrite acc.feature layer.name
            (extractLayerGeometry topology layer) }
  | LayerType.mesh =>
      { acc with
          mesh := insertOverwrite acc.mesh layer.name
            (extractLayerGeometry topology layer) }

/-- Modelled from the spec: extractGeoJSON produces, for each requested
    layer, its extracted geometry stored under the layer name in the
    collection matching the layer type. -/
def extractGeoJSON (topology : Topology) (layers : List Layer) : Extracted :=
  layers.foldl (extractStep topology) emptyExtracted

/-- Smallest box containing both arguments. -/
def unionBounds (b₁ b₂ : Bounds) : Bounds :=
  ((min b₁.1.1 b₂.1.1, min b₁.1.2 b₂.1.2),
   (max b₁.2.1 b₂.2.1, max b₁.2.2 b₂.2.2))

/-- Modelled from the spec: concatAndComputeGeoJSONBounds takes the
    union of the bounding boxes of every cache entry, feature and mesh
    alike, by a min/max reduction. -/
def concatAndComputeGeoJSONBounds (e : Extracted) : Bounds :=
  match (e.feature ++ e.mesh).map (fun p => p.2.bbox) with
  | [] => ((0, 0), (0, 0))
  | b :: rest => rest.foldl unionBounds b

/-- Modelled from the spec: calcScale(width, height, bounds) is the
    largest scale at which the bounds fit inside the viewport,
    min(width / boundsWidth, height / boundsHeight). -/
def calcScale (width height : ℚ) (bounds : Bounds) : ℚ :=
  min (width / (bounds.2.1 - bounds.1.1)) (height / (bounds.2.2 - bounds.1.2))

/-- Modelled from the spec: calcTranslate centers the scaled bounds in
    the viewport; when an explicit center (a geographic focal point) is
    supplied, it instead keeps that point at the viewport center. -/
def calcTranslate (width height scale : ℚ) (bounds : Bounds)
    (center : Option (ℚ × ℚ)) : ℚ × ℚ :=
  match center with
  | some c => (width / 2 - scale * c.1, height / 2 - scale * c.2)
  | none =>
      (width / 2 - scale * ((bounds.1.1 + bounds.2.1) / 2),
       height / 2 - scale * ((bounds.1.2 + bounds.2.2) / 2))

/-- Modelled from the spec: calcCenterPoint recovers the geographic
    point currently at the viewport center from the live transform. -/
def calcCenterPoint (width height scale : ℚ) (translate : ℚ × ℚ) : ℚ × ℚ :=
  ((width / 2 - translate.1) / scale, (height / 2 - translate.2) / scale)

/-- A datum object: an association list from property names to values. -/
abbrev Datum : Type := List (String × String)

/-- Accessor props such as keyField: either the name of a field or a
    function of the datum (spec section 9 models this sum explicitly). -/
inductive Accessor where
  | field : String → Accessor
  | fn : (Datum → String) → Accessor

/-- Modelled from the spec: propResolver(datum, accessor) reads the named
    field of the datum, or applies the accessor function to it. -/
def propResolver (datum : Datum) (accessor : Accessor) : String :=
  match accessor with
  | Accessor.field f => (datum.lookup f).getD ""
  | Accessor.fn g => g datum

/-- Lodash keyBy: builds an object keyed by the iteratee, in which the
    value stored under each key comes from the last element of the
    collection that generated the key. -/
def keyBy (data : List Datum) (f : Datum → String) : List (String × Datum) :=
  data.foldl (fun acc d => insertOverwrite acc (f d) d) []

/-- Choropleth.processData: keys the datum array by the resolved
    keyField of each datum. -/
def processData (data : List Datum) (keyField : Accessor) :
    List (String × Datum) :=
  keyBy data (fun datum => propResolver datum keyField)

/-- A computed inline style object.  Entry order is JavaScript property
    assignment order: for a duplicated property name the last entry is
    the one in effect. -/
abbrev StyleObj : Type := List (String × String)

/-- A rendered feature handed to a mesh layer style function. -/
abbrev Feature : Type := Geometry

/-- A layer style prop: a static style object or a function of the
    feature being rendered. -/
inductive StyleSpec where
  | obj : StyleObj → StyleSpec
  | fn : (Feature → StyleObj) → StyleSpec

/-- The value a style object holds for a property: the last entry for
    the property name wins, as in JavaScript object literals built by
    spread. -/
def styleGet (s : StyleObj) (k : String) : Option String :=
  s.foldl (fun acc p => if p.1 = k then some p.2 else acc) none

/-- The user-supplied part of a mesh layer style: the style itself, or
    the result of applying it to the feature. -/
def resolveStyle (layerStyle : StyleSpec) (feature : Feature) : StyleObj :=
  match layerStyle with
  | StyleSpec.obj o => o
  | StyleSpec.fn g => g feature

/-- Choropleth.calcMeshLayerStyle: spreads a base style with
    pointerEvents none first, then the computed user style on top of it
    (so a later entry for the same property overrides the base). -/
def calcMeshLayerStyle (key : String) (layerStyle : StyleSpec)
    (feature : Feature) : StyleObj :=
  let _ := key
  let baseStyle : StyleObj := [("pointerEvents", "none")]
  let computedStyle := resolveStyle layerStyle feature
  baseStyle ++ computedStyle

/-- The cache kept by a lodash-memoized function. -/
abbrev MemoCache : Type := List (String × StyleObj)

/-- Lodash memoize with the default resolver, as installed on
    calcMeshLayerStyle in the constructor: the cache key is the FIRST
    argument of the memoized function; on a cache hit the remaining
    arguments are ignored and the cached value is returned. -/
def memoizedCalcMeshLayerStyle (cache : MemoCache) (key : String)
    (layerStyle : StyleSpec) (feature : Feature) : StyleObj × MemoCache :=
  match cache.lookup key with
  | some v => (v, cache)
  | none =>
      let v := calcMeshLayerStyle key layerStyle feature
      (v, (key, v) :: cache)

/-- The value returned by Choropleth.createPathGenerator: it closes over
    the scale, translate and clip extent in force when it was built. -/
structure PathGen where
  scale : ℚ
  translate : ℚ × ℚ
  clipExtent : Bounds
deriving DecidableEq, Repr

/-- Choropleth.createPathGenerator. -/
def createPathGenerator (scale : ℚ) (translate : ℚ × ℚ)
    (clipExtent : Bounds) : PathGen :=
  { scale := scale, translate := translate, clipExtent := clipExtent }

/-- The point function of the geoTransform built by createPathGenerator:
    a geometry point (x, y) with simplification weight z is forwarded to
    the downstream stream exactly when z is at least 1 / scale / scale,
    at screen position (x scaled plus translate x, y scaled plus
    translate y). -/
def PathGen.point (g : PathGen) (x y z : ℚ) : Option (ℚ × ℚ) :=
  let area := 1 / g.scale / g.scale
  let pointX := x * g.scale + g.translate.1
  let pointY := y * g.scale + g.translate.2
  if area ≤ z then some (pointX, pointY) else none

/-- A child element of ResponsiveContainer, with the size props the
    container injects and an opaque payload. -/
structure ChildElement where
  width : ℚ
  height : ℚ
  payload : Nat
deriving DecidableEq, Repr

/-- The render function of ResponsiveContainer (index.jsx): when the
    measured width or height is falsy (zero) it returns null and renders
    no children at all; otherwise it clones each child with the measured
    width and height. -/
def responsiveContainerRender (width height : ℚ)
    (children : List ChildElement) : Option (List ChildElement) :=
  if width = 0 ∨ height = 0 then none
  else some (children.map (fun child =>
    { child with width := width, height := height }))

/-- The props of the Choropleth component that its state machine reads.
    layersRef and dataRef model the object references of the layers and
    data arrays, which componentWillReceiveProps compares with the
    JavaScript strict inequality operator. -/
structure Props where
  width : ℚ
  height : ℚ
  minZoom : ℚ
  maxZoom : ℚ
  zoomStep : ℚ
  topology : Topology
  layers : List Layer
  layersRef : Nat
  data : List Datum
  dataRef : Nat
  keyField : Accessor

/-- The component state set in the constructor and updated by setState. -/
structure State where
  bounds : Bounds
  scale : ℚ
  scaleBase : ℚ
  translate : ℚ × ℚ
  pathGenerator : PathGen
  cache : Extracted
  processedData : List (String × Datum)

/-- The live d3 zoom transform attached to the svg node. -/
structure ZoomTransform where
  k : ℚ
  x : ℚ
  y : ℚ
deriving DecidableEq, Repr

/-- A mounted Choropleth component instance: props, state, the instance
    fields this.clipExtent and the scale extent of this.zoom, and the
    d3 zoom transform of the svg node. -/
structure Component where
  props : Props
  state : State
  clipExtent : Bounds
  scaleExtent : ℚ × ℚ
  zoomTransform : ZoomTransform

/-- The clipExtent rectangle for a viewport, padded by the constant
    CLIP_EXTENT_PADDING of one unit on every side. -/
def clipExtentFor (width height : ℚ) : Bounds :=
  ((-1, -1), (width + 1, height + 1))

/-- The Choropleth constructor together with componentDidMount, which
    installs the initial transform (translate then scale) on the zoom
    behavior.  In particular the scale extent of this.zoom is set here,
    to (max scale minZoom, max scale maxZoom) for the initial fitted
    scale, and nowhere else. -/
def construct (props : Props) : Component :=
  let extractedGeoJSON := extractGeoJSON (presimplify props.topology) props.layers
  let bounds := concatAndComputeGeoJSONBounds extractedGeoJSON
  let scale := calcScale props.width props.height bounds
  let translate := calcTranslate props.width props.height scale bounds none
  let clipExtent := clipExtentFor props.width props.height
  { props := props
    clipExtent := clipExtent
    scaleExtent := (max scale props.minZoom, max scale props.maxZoom)
    zoomTransform := { k := scale, x := translate.1, y := translate.2 }
    state :=
      { bounds := bounds
        scale := scale
        scaleBase := scale
        translate := translate
        pathGenerator := createPathGenerator scale translate clipExtent
        cache := extractedGeoJSON
        processedData := processData props.data props.keyField } }

/-- Choropleth.currentZoomTransform on a mounted component. -/
def currentZoomTransform (c : Component) : ZoomTransform := c.zoomTransform

/-- The object literal named state that componentWillReceiveProps builds
    up: a field is none when the corresponding property was not set. -/
structure PendingState where
  cache : Option Extracted
  bounds : Option Bounds
  scaleBase : Option ℚ
  scale : Option ℚ
  translate : Option (ℚ × ℚ)
  pathGenerator : Option PathGen
  processedData : Option (List (String × Datum))
deriving Repr

def PendingState.empty : PendingState :=
  { cache := none, bounds := none, scaleBase := none, scale := none,
    translate := none, pathGenerator := none, processedData := none }

/-- Whether the pending state object has no own enumerable properties
    (the Object.keys(state).length guard before setState). -/
def PendingState.isUnset (s : PendingState) : Bool :=
  s.cache.isNone && s.bounds.isNone && s.scaleBase.isNone && s.scale.isNone &&
  s.translate.isNone && s.pathGenerator.isNone && s.processedData.isNone

/-- setState: merge the pending properties over the previous state. -/
def applyPending (s : State) (p : PendingState) : State :=
  { bounds := p.bounds.getD s.bounds
    scale := p.scale.getD s.scale
    scaleBase := p.scaleBase.getD s.scaleBase
    translate := p.translate.getD s.translate
    pathGenerator := p.pathGenerator.getD s.pathGenerator
    cache := p.cache.getD s.cache
    processedData := p.processedData.getD s.processedData }

/-- The cache the topology-or-layers branch starts from: a copy of the
    state cache when the topology reference is unchanged, the empty
    object when the topology is new. -/
def cwrpCacheBase (c : Component) (nextProps : Props) : Extracted :=
  if nextProps.topology = c.props.topology then c.state.cache else emptyExtracted

/-- Layers that are visible and not served by the cache, hence passed to
    extractGeoJSON: mesh layers always, other layers when the cache has
    no entry of their type under their name. -/
def hasGeom (cache : Extracted) (t : LayerType) (name : String) : Bool :=
  match t with
  | LayerType.feature => (cache.feature.lookup name).isSome
  | LayerType.mesh => (cache.mesh.lookup name).isSome

def uncachedLayersOf (cache : Extracted) (visibleLayers : List Layer) :
    List Layer :=
  visibleLayers.filter (fun layer =>
    layer.type == LayerType.mesh || !(hasGeom cache layer.type layer.name))

/-- The layers for which componentWillReceiveProps calls geometry
    extraction during a given prop update: none at all unless the
    topology or layers reference changed. -/
def extractedDuring (c : Component) (nextProps : Props) : List Layer :=
  if nextProps.topology ≠ c.props.topology ∨
     nextProps.layersRef ≠ c.props.layersRef then
    uncachedLayersOf (cwrpCacheBase c nextProps)
      (nextProps.layers.filter (fun l => l.visible))
  else []

/-- Modelled from the spec: quickMerge merges newly extracted layer
    geometry into the carried-over cache; an entry of the new collection
    overwrites a same-keyed entry of the old one (append-only merge). -/
def quickMerge (cache extra : Extracted) : Extracted :=
  { feature := extra.feature.foldl (fun m p => insertOverwrite m p.1 p.2)
      cache.feature
    mesh := extra.mesh.foldl (fun m p => insertOverwrite m p.1 p.2)
      cache.mesh }

/-- First branch of componentWillReceiveProps: on a topology or layers
    change, extract the still-uncached visible layers, merge them into
    the carried-over cache, and record new bounds when they differ. -/
def cwrpTopologyBranch (c : Component) (nextProps : Props) : PendingState :=
  let uncached := extractedDuring c nextProps
  if uncached.isEmpty then PendingState.empty
  else
    let topology :=
      if nextProps.topology = c.props.topology then nextProps.topology
      else presimplify nextProps.topology
    let newCache := quickMerge (cwrpCacheBase c nextProps)
      (extractGeoJSON topology uncached)
    let bounds := concatAndComputeGeoJSONBounds newCache
    { PendingState.empty with
        cache := some newCache
        bounds := if bounds = c.state.bounds then none else some bounds }

/-- Second branch of componentWillReceiveProps: on a resize or on new
    bounds, recompute the base scale, scale the previous zoom factor
    onto it, recompute the translate, rebuild the path generator, update
    this.clipExtent and reapply the transform to the zoom behavior. -/
def cwrpResizeBranch (c : Component) (nextProps : Props)
    (s₁ : PendingState) : PendingState × Bounds × Option ZoomTransform :=
  if nextProps.width ≠ c.props.width ∨ nextProps.height ≠ c.props.height ∨
     s₁.bounds.isSome then
    let clip := clipExtentFor nextProps.width nextProps.height
    let bounds := s₁.bounds.getD c.state.bounds
    let scaleBase := calcScale nextProps.width nextProps.height bounds
    let scale := scaleBase * (c.state.scale / c.state.scaleBase)
    let translate :=
      if s₁.bounds.isSome then
        calcTranslate nextProps.width nextProps.height scaleBase bounds none
      else
        let transform := currentZoomTransform c
        let center := calcCenterPoint c.props.width c.props.height
          transform.k (transform.x, transform.y)
        calcTranslate nextProps.width nextProps.height scale bounds
          (some center)
    ({ s₁ with
        scaleBase := some scaleBase
        scale := some scale
        translate := some translate
        pathGenerator := some (createPathGenerator scale translate clip) },
     clip,
     some { k := scale, x := translate.1, y := translate.2 })
  else (s₁, c.clipExtent, none)

/-- Third branch of componentWillReceiveProps: on a new data reference,
    rebuild the processed data mapping. -/
def cwrpDataBranch (c : Component) (nextProps : Props)
    (s₂ : PendingState) : PendingState :=
  if nextProps.dataRef ≠ c.props.dataRef then
    { s₂ with
        processedData := some (processData nextProps.data nextProps.keyField) }
  else s₂

/-- Choropleth.componentWillReceiveProps as a transition on the mounted
    component: neither branch ever touches the scale extent of
    this.zoom. -/
def componentWillReceiveProps (c : Component) (nextProps : Props) :
    Component :=
  let s₁ := cwrpTopologyBranch c nextProps
  let r := cwrpResizeBranch c nextProps s₁
  let s₃ := cwrpDataBranch c nextProps r.1
  { props := nextProps
    clipExtent := r.2.1
    scaleExtent := c.scaleExtent
    zoomTransform := (r.2.2).getD c.zoomTransform
    state := if s₃.isUnset then c.state else applyPending c.state s₃ }

/-- Choropleth.zoomEvent: read the live zoom transform and setState only
    the scale, the translate and a freshly built path generator. -/
def zoomEvent (c : Component) : Component :=
  let transform := currentZoomTransform c
  let scale := transform.k
  let translate := (transform.x, transform.y)
  let pathGenerator := createPathGenerator scale translate c.clipExtent
  { c with
      state := { c.state with
        scale := scale
        translate := translate
        pathGenerator := pathGenerator } }

/-- D3 zoom scaleBy on the svg selection: the new scale is the previous
    transform scale times the factor, clamped to the scale extent of the
    zoom behavior; the translate is recomputed so that the geographic
    point under the viewport center stays fixed.  The zoom event this
    dispatches runs zoomEvent, which copies the transform into state. -/
def scaleBy (c : Component) (factor : ℚ) : Component :=
  let t₀ := c.zoomTransform
  let k₁ := max c.scaleExtent.1 (min c.scaleExtent.2 (t₀.k * factor))
  let p₀ : ℚ × ℚ := (c.props.width / 2, c.props.height / 2)
  let p₁ : ℚ × ℚ := ((p₀.1 - t₀.x) / t₀.k, (p₀.2 - t₀.y) / t₀.k)
  zoomEvent { c with
    zoomTransform :=
      { k := k₁, x := p₀.1 - p₁.1 * k₁, y := p₀.2 - p₁.2 * k₁ } }

/-- Choropleth.zoomIn. -/
def zoomIn (c : Component) : Component := scaleBy c c.props.zoomStep

/-- Choropleth.zoomOut. -/
def zoomOut (c : Component) : Component := scaleBy c (1 / c.props.zoomStep)

/-- A programmatic zoom control press. -/
inductive ZoomOp where
  | zin : ZoomOp
  | zout : ZoomOp
deriving DecidableEq, Repr

def applyZoomOp (c : Component) (op : ZoomOp) : Component :=
  match op with
  | ZoomOp.zin => zoomIn c
  | ZoomOp.zout => zoomOut c

def applyZoomOps (c : Component) (ops : List ZoomOp) : Component :=
  ops.foldl applyZoomOp c

/-- The output drawn for one layer, at the granularity the claims need:
    everything renderLayers feeds to FeatureLayer or Path that can vary
    between two renders of the same component class. -/
inductive Rendered where
  | featureLayer (processedData : List (String × Datum))
      (features : Option Geometry) (pathGenerator : PathGen)
      (classNameRef styleRef selectedStyleRef selectedClassNameRef : Nat) :
      Rendered
  | meshLayer (classNameRef : Nat) (feature : Option Geometry)
      (pathGenerator : PathGen) (styleRef : Nat) : Rendered
deriving DecidableEq, Repr

/-- The body of the renderLayers map for a single layer: nothing for an
    invisible layer, otherwise a FeatureLayer or a mesh Path wired to
    the cached geometry of the layer and the current path generator. -/
def renderLayer (c : Component) (layer : Layer) : Option Rendered :=
  if !layer.visible then none
  else
    match layer.type with
    | LayerType.feature =>
        some (Rendered.featureLayer c.state.processedData
          (c.state.cache.feature.lookup layer.name)
          c.state.pathGenerator
          layer.classNameRef layer.styleRef layer.selectedStyleRef
          layer.selectedClassNameRef)
    | LayerType.mesh =>
        some (Rendered.meshLayer layer.classNameRef
          (c.state.cache.mesh.lookup layer.name)
          c.state.pathGenerator layer.styleRef)

/-- Choropleth.renderLayers: one entry per layer of the props, in layer
    array order. -/
def renderLayers (c : Component) : List (Option Rendered) :=
  c.props.layers.map (renderLayer c)

/-- Toggle the visible flag of one layer of a layers array to false,
    leaving every other layer unchanged. -/
def toggleOff (layers : List Layer) (l : Layer) : List Layer :=
  layers.map (fun x => if x = l then { x with visible := false } else x)

/-- The props produced by re-rendering with one layer toggled invisible:
    a fresh layers array reference holding the toggled list. -/
def togglePropsOff (p : Props) (l : Layer) (r : Nat) : Props :=
  { p with layers := toggleOff p.layers l, layersRef := r }

/-- The props produced by re-rendering with the original layer contents
    under a fresh layers array reference (the toggle-back update). -/
def withLayersRef (p : Props) (r : Nat) : Props :=
  { p with layersRef := r }

/-! Concrete demonstration values, used to evaluate the definitions on
    closed inputs. -/

/-- A concrete mesh feature. -/
def demoFeature : Feature :=
  { topoId := 7, objectName := "borders", isMesh := true, filterId := none,
    bbox := ((0, 0), (10, 10)) }

/-- A concrete topology with a polygon collection and a border
    collection. -/
def demoTopology : Topology :=
  { id := 7
    objects := [("countries", ((0, 0), (10, 10))),
                ("borders", ((0, 0), (10, 10)))] }

/-- A visible mesh layer over the border collection. -/
def demoMeshLayer : Layer :=
  { name := "borders", type := LayerType.mesh, object := "borders",
    visible := true, filterFn := none, styleRef := 0, selectedStyleRef := 0,
    classNameRef := 0, selectedClassNameRef := 0 }

/-- A visible feature layer over the polygon collection. -/
def demoFeatureLayer : Layer :=
  { name := "countries", type := LayerType.feature, object := "countries",
    visible := true, filterFn := none, styleRef := 1, selectedStyleRef := 1,
    classNameRef := 1, selectedClassNameRef := 1 }

/-- Initial props: a 600 by 400 viewport over both demo layers. -/
def demoProps : Props :=
  { width := 600, height := 400, minZoom := 0, maxZoom := 100,
    zoomStep := 11 / 10, topology := demoTopology,
    layers := [demoFeatureLayer, demoMeshLayer], layersRef := 0,
    data := [[("id", "1"), ("mean", "10")]], dataRef := 0,
    keyField := Accessor.field "id" }

/-- The demo mesh layer with its visible flag cleared. -/
def demoMeshLayerOff : Layer := { demoMeshLayer with visible := false }

/-- The demo props with the mesh layer toggled invisible (a fresh layers
    array reference). -/
def demoPropsMeshOff : Props :=
  { demoProps with
    layers := [demoFeatureLayer, demoMeshLayerOff]
    layersRef := 1 }

/-- The demo props with the mesh layer toggled visible again (another
    fresh layers array reference). -/
def demoPropsMeshOn : Props := { demoProps with layersRef := 2 }

/-- The demo props shrunk to a 300 by 200 viewport. -/
def demoPropsResized : Props :=
  { demoProps with width := 300, height := 200 }

/-- The demo props with a minZoom above the fitted base scale. -/
def demoHighMinZoomProps : Props := { demoProps with minZoom := 100 }

/-! Helper lemmas. -/

theorem lookup_insertOverwrite {α : Type} (m : List (String × α))
    (k k₀ : String) (v : α) :
    (insertOverwrite m k v).lookup k₀ =
      if k₀ = k then some v else m.lookup k₀ := by
  induction m with
  | nil =>
      by_cases hk : k₀ = k
      · have hb : (k₀ == k) = true := beq_iff_eq.mpr hk
        simp [insertOverwrite, List.lookup, hb, hk]
      · have hb : (k₀ == k) = false := beq_eq_false_iff_ne.mpr hk
        simp [insertOverwrite, List.lookup, hb, hk]
  | cons p rest ih =>
      obtain ⟨k₁, v₁⟩ := p
      by_cases h₁ : k₁ = k
      · subst h₁
        by_cases hk : k₀ = k₁
        · have hb : (k₀ == k₁) = true := beq_iff_eq.mpr hk
          simp [insertOverwrite, List.lookup, hb, hk]
        · have hb : (k₀ == k₁) = false := beq_eq_false_iff_ne.mpr hk
          simp [insertOverwrite, List.lookup, hb, hk]
      · by_cases hk : k₀ = k₁
        · have hb : (k₀ == k₁) = true := beq_iff_eq.mpr hk
          have hk₀ : k₀ ≠ k := fun hEq => h₁ (hk.symm.trans hEq)
          simp [insertOverwrite, List.lookup, h₁, hb, hk₀]
        · have hb : (k₀ == k₁) = false := beq_eq_false_iff_ne.mpr hk
          simp [insertOverwrite, List.lookup, h₁, hb, ih]

theorem styleFold_const (b : StyleObj) (k : String) (acc : Option String)
    (h : ∀ p ∈ b, p.1 ≠ k) :
    b.foldl (fun acc p => if p.1 = k then some p.2 else acc) acc = acc := by
  induction b generalizing acc with
  | nil => rfl
  | cons q rest ih =>
      have hq : q.1 ≠ k := h q (List.mem_cons_self q rest)
      simp only [List.foldl_cons, if_neg hq]
      exact ih acc (fun p hp => h p (List.mem_cons_of_mem q hp))

theorem styleFold_some (b : StyleObj) (k : String) (v : String) :
    (b.foldl (fun acc p => if p.1 = k then some p.2 else acc)
      (some v)).isSome := by
  induction b generalizing v with
  | nil => rfl
  | cons q rest ih =>
      simp only [List.foldl_cons]
      by_cases hq : q.1 = k
      · rw [if_pos hq]; exact ih q.2
      · rw [if_neg hq]; exact ih v

theorem styleGet_none_no_key (s : StyleObj) (k : String)
    (h : styleGet s k = none) : ∀ p ∈ s, p.1 ≠ k := by
  induction s with
  | nil => intro p hp; cases hp
  | cons q rest ih =>
      intro p hp
      unfold styleGet at h
      simp only [List.foldl_cons] at h
      by_cases hq : q.1 = k
      · rw [if_pos hq] at h
        have := styleFold_some rest k q.2
        rw [h] at this
        cases this
      · rw [if_neg hq] at h
        rcases List.mem_cons.mp hp with hp | hp
        · rw [hp]; exact hq
        · exact ih h p hp

/-! Claim theorems. -/

/-- Claim C1: at construction, the scale extent of the zoom behavior is
    set to (max scaleBase minZoom, max scaleBase maxZoom), where
    scaleBase is the initial fitted scale computed from the first
    bounds, and no prop-update transition (resize, bounds change,
    topology, layers or data change) ever recomputes it. -/
theorem scaleExtent_fixed_at_construction :
    (∀ props : Props,
      (construct props).state.scaleBase =
        calcScale props.width props.height
          (concatAndComputeGeoJSONBounds
            (extractGeoJSON (presimplify props.topology) props.layers)) ∧
      (construct props).scaleExtent =
        (max (construct props).state.scaleBase props.minZoom,
         max (construct props).state.scaleBase props.maxZoom)) ∧
    (∀ (c : Component) (nextProps : Props),
      (componentWillReceiveProps c nextProps).scaleExtent = c.scaleExtent) :=
  ⟨fun _ => ⟨rfl, rfl⟩, fun _ _ => rfl⟩

/-- Claim C7: a zoom gesture transition (zoomEvent) replaces only the
    scale, translate and path generator in component state, taking them
    from the live zoom transform; the geometry cache, the bounds, the
    base scale and the processed data are untouched. -/
theorem zoomEvent_frame (c : Component) :
    (zoomEvent c).state.cache = c.state.cache ∧
    (zoomEvent c).state.bounds = c.state.bounds ∧
    (zoomEvent c).state.scaleBase = c.state.scaleBase ∧
    (zoomEvent c).state.processedData = c.state.processedData ∧
    (zoomEvent c).state.scale = (currentZoomTransform c).k ∧
    (zoomEvent c).state.translate =
      ((currentZoomTransform c).x, (currentZoomTransform c).y) ∧
    (zoomEvent c).state.pathGenerator =
      createPathGenerator (currentZoomTransform c).k
        ((currentZoomTransform c).x, (currentZoomTransform c).y)
        c.clipExtent :=
  ⟨rfl, rfl, rfl, rfl, rfl, rfl, rfl⟩

/-- Claim C8: the point transform built by createPathGenerator emits a
    geometry point exactly when its simplification weight z is at least
    1 / (scale * scale), and then at screen coordinates
    (x * scale + translate.1, y * scale + translate.2). -/
theorem createPathGenerator_point_spec (scale : ℚ) (translate : ℚ × ℚ)
    (clip : Bounds) (x y z : ℚ) (h : scale ≠ 0) :
    (createPathGenerator scale translate clip).point x y z =
      if 1 / (scale * scale) ≤ z then
        some (x * scale + translate.1, y * scale + translate.2)
      else none := by
  have harea : 1 / scale / scale = 1 / (scale * scale) := div_div 1 scale scale
  simp only [createPathGenerator, PathGen.point, harea]

/-- Witness for claim C8 at scale 2, translate (3, 4). -/
theorem createPathGenerator_point_spec_witness :
    (2 : ℚ) ≠ 0 ∧
    (createPathGenerator 2 (3, 4) ((0, 0), (1, 1))).point 5 6 1 =
      if 1 / ((2 : ℚ) * 2) ≤ 1 then
        some (5 * 2 + 3, 6 * 2 + 4)
      else none :=
  ⟨by norm_num,
   createPathGenerator_point_spec 2 (3, 4) ((0, 0), (1, 1)) 5 6 1
     (by norm_num)⟩

/-- Claim C9: with a zero measured width or height, ResponsiveContainer
    renders null, so none of its children (in particular no choropleth
    and no layers) are drawn until a nonzero size is available. -/
theorem responsiveContainer_zero_size (width height : ℚ)
    (children : List ChildElement) (h : width = 0 ∨ height = 0) :
    responsiveContainerRender width height children = none := by
  unfold responsiveContainerRender
  rw [if_pos h]

/-- Witness for claim C9 at width zero. -/
theorem responsiveContainer_zero_size_witness :
    ((0 : ℚ) = 0 ∨ (5 : ℚ) = 0) ∧
    responsiveContainerRender 0 5
      [{ width := 1, height := 2, payload := 3 }] = none :=
  ⟨Or.inl rfl,
   responsiveContainer_zero_size 0 5
     [{ width := 1, height := 2, payload := 3 }] (Or.inl rfl)⟩

/-- Counterexample to claim C5: the memoized calcMeshLayerStyle is keyed
    on the layer key alone (lodash memoize default resolver), so a
    second call with the same key but a different style returns the
    stale value computed from the first style, not the style computed
    from its own arguments. -/
theorem meshLayerStyle_memo_stale :
    (memoizedCalcMeshLayerStyle
        (memoizedCalcMeshLayerStyle [] "mesh-borders"
          (StyleSpec.obj [("stroke", "red")]) demoFeature).2
        "mesh-borders" (StyleSpec.obj [("stroke", "blue")]) demoFeature).1 ≠
      calcMeshLayerStyle "mesh-borders"
        (StyleSpec.obj [("stroke", "blue")]) demoFeature := by
  decide

/-- Claim C5 as amended: the computed mesh style is memoized on the
    layer key ALONE; after one call, any further call with the same key
    returns the cached result of the first call, whatever its style and
    feature arguments are. -/
theorem meshLayerStyle_memo_keyed_on_key (cache : MemoCache) (key : String)
    (s₁ s₂ : StyleSpec) (f₁ f₂ : Feature) :
    (memoizedCalcMeshLayerStyle
        ((memoizedCalcMeshLayerStyle cache key s₁ f₁).2) key s₂ f₂).1 =
      (memoizedCalcMeshLayerStyle cache key s₁ f₁).1 := by
  unfold memoizedCalcMeshLayerStyle
  cases h : cache.lookup key with
  | some v => simp [h]
  | none => simp [h, List.lookup]

/-- Counterexample to claim C6: calcMeshLayerStyle spreads the base
    style first and the user style second, so a user style carrying its
    own pointerEvents entry overrides the none default, and the mesh
    layer is not forced non-interactive. -/
theorem meshLayerStyle_pointerEvents_overridable :
    styleGet (calcMeshLayerStyle "mesh-borders"
        (StyleSpec.obj [("pointerEvents", "all")]) demoFeature)
      "pointerEvents" ≠ some "none" := by
  decide

/-- Claim C6 as amended: the style applied to a mesh path has
    pointerEvents none whenever the user-supplied style (or the result
    of applying it to the feature) does not itself define a
    pointerEvents entry; a user-supplied entry overrides the default. -/
theorem meshLayerStyle_pointerEvents_default (key : String) (s : StyleSpec)
    (f : Feature)
    (h : styleGet (resolveStyle s f) "pointerEvents" = none) :
    styleGet (calcMeshLayerStyle key s f) "pointerEvents" = some "none" := by
  have hk : ∀ p ∈ resolveStyle s f, p.1 ≠ "pointerEvents" :=
    styleGet_none_no_key (resolveStyle s f) "pointerEvents" h
  unfold calcMeshLayerStyle styleGet
  rw [List.foldl_append]
  simp only [List.foldl_cons, List.foldl_nil, if_pos rfl]
  exact styleFold_const (resolveStyle s f) "pointerEvents" (some "none") hk

/-- Witness for the amended claim C6: a user style with only a stroke
    entry leaves pointerEvents none in force. -/
theorem meshLayerStyle_pointerEvents_default_witness :
    styleGet (resolveStyle (StyleSpec.obj [("stroke", "red")]) demoFeature)
        "pointerEvents" = none ∧
    styleGet (calcMeshLayerStyle "mesh-borders"
        (StyleSpec.obj [("stroke", "red")]) demoFeature)
      "pointerEvents" = some "none" :=
  ⟨by decide,
   meshLayerStyle_pointerEvents_default "mesh-borders"
     (StyleSpec.obj [("stroke", "red")]) demoFeature (by decide)⟩

/-- Claim C10: processData stores each datum under its resolved key,
    and when several datums resolve to the same key, the mapping holds
    exactly the one occurring last in array order: looking up any key
    returns the last datum of the array resolving to it (and nothing
    when no datum does). -/
theorem processData_last_datum_wins (data : List Datum) (keyField : Accessor)
    (k : String) :
    (processData data keyField).lookup k =
      (data.filter (fun d => propResolver d keyField == k)).getLast? := by
  induction data using List.reverseRecOn with
  | nil => rfl
  | append_singleton data d ih =>
      have hfold :
          processData (data ++ [d]) keyField =
            insertOverwrite (processData data keyField)
              (propResolver d keyField) d := by
        unfold processData keyBy
        rw [List.foldl_append]
        rfl
      rw [hfold, lookup_insertOverwrite, List.filter_append]
      by_cases hk : k = propResolver d keyField
      · have hb : (propResolver d keyField == k) = true :=
          beq_iff_eq.mpr hk.symm
        rw [if_pos hk]
        simp [List.filter, hb]
      · have hb : (propResolver d keyField == k) = false :=
          beq_eq_false_iff_ne.mpr (fun hEq => hk hEq.symm)
        rw [if_neg hk]
        simp [List.filter, hb, ih]

/-- The state computed by componentWillReceiveProps, by definition. -/
theorem cwrp_state_def (c : Component) (np : Props) :
    (componentWillReceiveProps c np).state =
      (if (cwrpDataBranch c np
            (cwrpResizeBranch c np (cwrpTopologyBranch c np)).1).isUnset
       then c.state
       else applyPending c.state
         (cwrpDataBranch c np
           (cwrpResizeBranch c np (cwrpTopologyBranch c np)).1)) := rfl

/-- The resize branch, once its condition holds, records the recomputed
    base scale and the rescaled effective scale. -/
theorem cwrpResizeBranch_fields (c : Component) (np : Props)
    (s₁ : PendingState)
    (h : np.width ≠ c.props.width ∨ np.height ≠ c.props.height ∨
      s₁.bounds.isSome = true) :
    ((cwrpResizeBranch c np s₁).1).scaleBase =
      some (calcScale np.width np.height (s₁.bounds.getD c.state.bounds)) ∧
    ((cwrpResizeBranch c np s₁).1).scale =
      some (calcScale np.width np.height (s₁.bounds.getD c.state.bounds) *
        (c.state.scale / c.state.scaleBase)) := by
  unfold cwrpResizeBranch
  rw [if_pos h]
  exact ⟨rfl, rfl⟩

/-- The data branch never touches the pending scale fields. -/
theorem cwrpDataBranch_scales (c : Component) (np : Props)
    (s : PendingState) :
    (cwrpDataBranch c np s).scale = s.scale ∧
    (cwrpDataBranch c np s).scaleBase = s.scaleBase := by
  unfold cwrpDataBranch
  split <;> exact ⟨rfl, rfl⟩

/-- A pending state that records a scale is not the empty object. -/
theorem isUnset_false_of_scale (s : PendingState) (q : ℚ)
    (h : s.scale = some q) : s.isUnset = false := by
  unfold PendingState.isUnset
  rw [h]
  simp

/-- The demo component fits the ten by ten bounds into the 600 by 400
    viewport at base scale forty. -/
theorem demo_scaleBase_eval : (construct demoProps).state.scaleBase = 40 := by
  have hb : concatAndComputeGeoJSONBounds
      (extractGeoJSON (presimplify demoProps.topology) demoProps.layers) =
      ((0, 0), (10, 10)) := by decide
  show calcScale demoProps.width demoProps.height
      (concatAndComputeGeoJSONBounds
        (extractGeoJSON (presimplify demoProps.topology) demoProps.layers)) = 40
  rw [hb]
  norm_num [calcScale, demoProps, min_def]

/-- Claim C2: on every prop update that changes the viewport width or
    height, with a nonzero previous base scale, the new effective scale
    is the new base scale times the previous relative zoom factor
    (previous scale over previous base scale). -/
theorem resize_preserves_zoom_factor (c : Component) (nextProps : Props)
    (hw : nextProps.width ≠ c.props.width ∨
      nextProps.height ≠ c.props.height)
    (hbase : c.state.scaleBase ≠ 0) :
    (componentWillReceiveProps c nextProps).state.scale =
      (componentWillReceiveProps c nextProps).state.scaleBase *
        (c.state.scale / c.state.scaleBase) := by
  have hcond : nextProps.width ≠ c.props.width ∨
      nextProps.height ≠ c.props.height ∨
      ((cwrpTopologyBranch c nextProps).bounds.isSome = true) := by
    rcases hw with h | h
    · exact Or.inl h
    · exact Or.inr (Or.inl h)
  obtain ⟨hsb, hsc⟩ :=
    cwrpResizeBranch_fields c nextProps (cwrpTopologyBranch c nextProps) hcond
  obtain ⟨hdsc, hdsb⟩ :=
    cwrpDataBranch_scales c nextProps
      (cwrpResizeBranch c nextProps (cwrpTopologyBranch c nextProps)).1
  have hscale := hdsc.trans hsc
  have hscaleBase := hdsb.trans hsb
  have hunset :
      (cwrpDataBranch c nextProps
        (cwrpResizeBranch c nextProps (cwrpTopologyBranch c nextProps)).1).isUnset
        = false :=
    isUnset_false_of_scale _ _ hscale
  rw [cwrp_state_def, if_neg (by rw [hunset]; exact Bool.false_ne_true)]
  unfold applyPending
  rw [hscale, hscaleBase]
  rfl

/-- Witness for claim C2: shrinking the demo viewport from 600 by 400
    to 300 by 200. -/
theorem resize_preserves_zoom_factor_witness :
    (demoPropsResized.width ≠ (construct demoProps).props.width ∨
     demoPropsResized.height ≠ (construct demoProps).props.height) ∧
    (construct demoProps).state.scaleBase ≠ 0 ∧
    (componentWillReceiveProps (construct demoProps)
        demoPropsResized).state.scale =
      (componentWillReceiveProps (construct demoProps)
          demoPropsResized).state.scaleBase *
        ((construct demoProps).state.scale /
          (construct demoProps).state.scaleBase) :=
  ⟨Or.inl (by decide), by rw [demo_scaleBase_eval]; norm_num,
   resize_preserves_zoom_factor (construct demoProps) demoPropsResized
     (Or.inl (by decide)) (by rw [demo_scaleBase_eval]; norm_num)⟩

/-- One zoom control press clamps the new transform scale into the
    scale extent of the zoom behavior and mirrors it into state, leaving
    the extent itself untouched. -/
theorem applyZoomOp_step (c : Component) (op : ZoomOp)
    (hE : c.scaleExtent.1 ≤ c.scaleExtent.2) :
    (applyZoomOp c op).scaleExtent = c.scaleExtent ∧
    c.scaleExtent.1 ≤ (applyZoomOp c op).state.scale ∧
    (applyZoomOp c op).state.scale ≤ c.scaleExtent.2 ∧
    (applyZoomOp c op).zoomTransform.k = (applyZoomOp c op).state.scale := by
  cases op with
  | zin =>
      refine ⟨rfl, ?_, ?_, rfl⟩
      · show c.scaleExtent.1 ≤ max c.scaleExtent.1
          (min c.scaleExtent.2 (c.zoomTransform.k * c.props.zoomStep))
        exact le_max_left _ _
      · show max c.scaleExtent.1
          (min c.scaleExtent.2 (c.zoomTransform.k * c.props.zoomStep)) ≤
          c.scaleExtent.2
        exact max_le hE (min_le_left _ _)
  | zout =>
      refine ⟨rfl, ?_, ?_, rfl⟩
      · show c.scaleExtent.1 ≤ max c.scaleExtent.1
          (min c.scaleExtent.2 (c.zoomTransform.k * (1 / c.props.zoomStep)))
        exact le_max_left _ _
      · show max c.scaleExtent.1
          (min c.scaleExtent.2 (c.zoomTransform.k * (1 / c.props.zoomStep))) ≤
          c.scaleExtent.2
        exact max_le hE (min_le_left _ _)

/-- Along any sequence of zoom control presses, the scale extent is
    stable, the state scale stays within it, and the transform scale
    agrees with the state scale. -/
theorem applyZoomOps_invariant (ops : List ZoomOp) (c : Component)
    (h₁ : c.scaleExtent.1 ≤ c.state.scale)
    (h₂ : c.state.scale ≤ c.scaleExtent.2)
    (hk : c.zoomTransform.k = c.state.scale) :
    (applyZoomOps c ops).scaleExtent = c.scaleExtent ∧
    c.scaleExtent.1 ≤ (applyZoomOps c ops).state.scale ∧
    (applyZoomOps c ops).state.scale ≤ c.scaleExtent.2 ∧
    (applyZoomOps c ops).zoomTransform.k =
      (applyZoomOps c ops).state.scale := by
  induction ops generalizing c with
  | nil => exact ⟨rfl, h₁, h₂, hk⟩
  | cons op rest ih =>
      have hE : c.scaleExtent.1 ≤ c.scaleExtent.2 := le_trans h₁ h₂
      have hk₁ : c.scaleExtent.1 ≤ c.zoomTransform.k := by rw [hk]; exact h₁
      obtain ⟨sE, s₁, s₂, sk⟩ := applyZoomOp_step c op hE
      obtain ⟨iE, i₁, i₂, ik⟩ := ih (applyZoomOp c op)
        (by rw [sE]; exact s₁) (by rw [sE]; exact s₂) sk
      refine ⟨?_, ?_, ?_, ?_⟩
      · show (applyZoomOps (applyZoomOp c op) rest).scaleExtent =
          c.scaleExtent
        rw [iE, sE]
      · show c.scaleExtent.1 ≤
          (applyZoomOps (applyZoomOp c op) rest).state.scale
        rw [← sE]; exact i₁
      · show (applyZoomOps (applyZoomOp c op) rest).state.scale ≤
          c.scaleExtent.2
        rw [← sE]; exact i₂
      · exact ik

/-- The high-minZoom demo component still fits the ten by ten bounds
    into the 600 by 400 viewport at base scale forty, since the base
    scale does not depend on minZoom. -/
theorem demoHighMinZoom_scaleBase_eval :
    (construct demoHighMinZoomProps).state.scaleBase = 40 := by
  have hb : concatAndComputeGeoJSONBounds
      (extractGeoJSON (presimplify demoHighMinZoomProps.topology)
        demoHighMinZoomProps.layers) = ((0, 0), (10, 10)) := by decide
  show calcScale demoHighMinZoomProps.width demoHighMinZoomProps.height
      (concatAndComputeGeoJSONBounds
        (extractGeoJSON (presimplify demoHighMinZoomProps.topology)
          demoHighMinZoomProps.layers)) = 40
  rw [hb]
  norm_num [calcScale, demoHighMinZoomProps, demoProps, min_def]

/-- Counterexample to claim C3: with minZoom 100 above the fitted base
    scale 40, the constructor sets the extent minimum to 100 while the
    mount transform applies the unclamped base scale 40, so already
    after the empty sequence of zoomIn and zoomOut calls the effective
    scale lies outside the construction-time extent. -/
theorem zoom_extent_exit_at_construction :
    ¬ ((construct demoHighMinZoomProps).scaleExtent.1 ≤
        (applyZoomOps (construct demoHighMinZoomProps) []).state.scale ∧
       (applyZoomOps (construct demoHighMinZoomProps) []).state.scale ≤
        (construct demoHighMinZoomProps).scaleExtent.2) := by
  have hsc : (applyZoomOps (construct demoHighMinZoomProps) []).state.scale
      = 40 := demoHighMinZoom_scaleBase_eval
  have hext : (construct demoHighMinZoomProps).scaleExtent.1 = 100 := by
    show max (construct demoHighMinZoomProps).state.scaleBase
      demoHighMinZoomProps.minZoom = 100
    rw [demoHighMinZoom_scaleBase_eval]
    norm_num [demoHighMinZoomProps, max_def]
  intro h
  obtain ⟨h₁, _⟩ := h
  rw [hext, hsc] at h₁
  norm_num at h₁

/-- Claim C3 as amended: provided minZoom does not exceed the initial
    fitted base scale (as with the default minZoom of zero), any finite
    sequence of zoomIn and zoomOut presses starting from the freshly
    constructed component keeps the effective scale within the scale
    extent fixed at construction.  The proviso is forced by the
    counterexample: the mount transform is applied without clamping, so
    a minZoom above the base scale puts the initial scale itself (the
    empty call sequence) below the extent minimum. -/
theorem zoom_controls_stay_within_extent (p : Props) (ops : List ZoomOp)
    (h : p.minZoom ≤ (construct p).state.scaleBase) :
    (construct p).scaleExtent.1 ≤
      (applyZoomOps (construct p) ops).state.scale ∧
    (applyZoomOps (construct p) ops).state.scale ≤
      (construct p).scaleExtent.2 := by
  have h₁ : (construct p).scaleExtent.1 ≤ (construct p).state.scale := by
    show max (construct p).state.scaleBase p.minZoom ≤ (construct p).state.scale
    rw [max_eq_left h]
    exact le_refl _
  have h₂ : (construct p).state.scale ≤ (construct p).scaleExtent.2 := by
    show (construct p).state.scale ≤ max (construct p).state.scaleBase p.maxZoom
    exact le_max_left _ _
  obtain ⟨_, i₁, i₂, _⟩ := applyZoomOps_invariant ops (construct p) h₁ h₂ rfl
  exact ⟨i₁, i₂⟩

/-- Witness for claim C3: two zoom-in presses and one zoom-out press on
    the demo component. -/
theorem zoom_controls_stay_within_extent_witness :
    demoProps.minZoom ≤ (construct demoProps).state.scaleBase ∧
    ((construct demoProps).scaleExtent.1 ≤
      (applyZoomOps (construct demoProps)
        [ZoomOp.zin, ZoomOp.zin, ZoomOp.zout]).state.scale ∧
     (applyZoomOps (construct demoProps)
        [ZoomOp.zin, ZoomOp.zin, ZoomOp.zout]).state.scale ≤
      (construct demoProps).scaleExtent.2) :=
  ⟨by rw [demo_scaleBase_eval]; norm_num [demoProps],
   zoom_controls_stay_within_extent demoProps
     [ZoomOp.zin, ZoomOp.zin, ZoomOp.zout]
     (by rw [demo_scaleBase_eval]; norm_num [demoProps])⟩

/-- Membership in an overwriting insert: the element was already there,
    or it is the inserted binding. -/
theorem mem_insertOverwrite {α : Type} (m : List (String × α)) (k : String)
    (v : α) (p : String × α) (h : p ∈ insertOverwrite m k v) :
    p ∈ m ∨ p = (k, v) := by
  induction m with
  | nil =>
      simp [insertOverwrite] at h
      exact Or.inr h
  | cons q rest ih =>
      obtain ⟨k₁, v₁⟩ := q
      unfold insertOverwrite at h
      by_cases h₁ : k₁ = k
      · rw [if_pos h₁] at h
        rcases List.mem_cons.mp h with h₂ | h₂
        · exact Or.inr h₂
        · exact Or.inl (List.mem_cons_of_mem _ h₂)
      · rw [if_neg h₁] at h
        rcases List.mem_cons.mp h with h₂ | h₂
        · exact Or.inl (h₂ ▸ List.mem_cons_self _ _)
        · rcases ih h₂ with h₃ | h₃
          · exact Or.inl (List.mem_cons_of_mem _ h₃)
          · exact Or.inr h₃

/-- Overwriting a binding with the value it already holds is the
    identity. -/
theorem insertOverwrite_lookup_self {α : Type} (m : List (String × α))
    (k : String) (v : α) (h : m.lookup k = some v) :
    insertOverwrite m k v = m := by
  induction m with
  | nil => simp [List.lookup] at h
  | cons q rest ih =>
      obtain ⟨k₁, v₁⟩ := q
      by_cases h₁ : k₁ = k
      · subst h₁
        have hb : (k₁ == k₁) = true := beq_iff_eq.mpr rfl
        simp [List.lookup, hb] at h
        simp [insertOverwrite, h]
      · have hb : (k == k₁) = false :=
          beq_eq_false_iff_ne.mpr (fun hEq => h₁ hEq.symm)
        simp [List.lookup, hb] at h
        simp [insertOverwrite, h₁, ih h]

/-- Folding overwriting inserts whose bindings the base map already
    holds is the identity on the base map. -/
theorem foldl_insertOverwrite_eq {α : Type} (extra base : List (String × α))
    (h : ∀ p ∈ extra, base.lookup p.1 = some p.2) :
    extra.foldl (fun m p => insertOverwrite m p.1 p.2) base = base := by
  induction extra with
  | nil => rfl
  | cons q rest ih =>
      show rest.foldl (fun m p => insertOverwrite m p.1 p.2)
        (insertOverwrite base q.1 q.2) = base
      rw [insertOverwrite_lookup_self base q.1 q.2
        (h q (List.mem_cons_self _ _))]
      exact ih (fun p hp => h p (List.mem_cons_of_mem _ hp))

/-- Extracting only mesh layers leaves the feature collection of the
    accumulator untouched. -/
theorem extract_foldl_feature (t : Topology) (L : List Layer) :
    ∀ acc : Extracted, (∀ l' ∈ L, l'.type = LayerType.mesh) →
    (L.foldl (extractStep t) acc).feature = acc.feature := by
  induction L with
  | nil => intro acc _; rfl
  | cons layer rest ih =>
      intro acc h
      have hm : layer.type = LayerType.mesh :=
        h layer (List.mem_cons_self _ _)
      show (rest.foldl (extractStep t) (extractStep t acc layer)).feature =
        acc.feature
      rw [ih (extractStep t acc layer)
        (fun x hx => h x (List.mem_cons_of_mem _ hx))]
      simp [extractStep, hm]

/-- Every mesh entry produced by extraction either was in the
    accumulator or is the extraction of one of the layers. -/
theorem extract_foldl_mesh_mem (t : Topology) (L : List Layer) :
    ∀ (acc : Extracted) (p : String × Geometry),
    p ∈ (L.foldl (extractStep t) acc).mesh →
    p ∈ acc.mesh ∨
      ∃ l', l' ∈ L ∧ p = (l'.name, extractLayerGeometry t l') := by
  induction L with
  | nil => intro acc p hp; exact Or.inl hp
  | cons layer rest ih =>
      intro acc p hp
      rcases ih (extractStep t acc layer) p hp with hin | ⟨l', hl', hpe⟩
      · cases hty : layer.type with
        | feature =>
            have hms : (extractStep t acc layer).mesh = acc.mesh := by
              simp [extractStep, hty]
            rw [hms] at hin
            exact Or.inl hin
        | mesh =>
            have hms : (extractStep t acc layer).mesh =
                insertOverwrite acc.mesh layer.name
                  (extractLayerGeometry t layer) := by
              simp [extractStep, hty]
            rw [hms] at hin
            rcases mem_insertOverwrite acc.mesh layer.name
                (extractLayerGeometry t layer) p hin with h₁ | h₁
            · exact Or.inl h₁
            · exact Or.inr ⟨layer, List.mem_cons_self _ _, h₁⟩
      · exact Or.inr ⟨l', List.mem_cons_of_mem _ hl', hpe⟩

/-- Merging the extraction of mesh layers whose cache entries already
    hold the freshly extracted geometry is the identity on the cache. -/
theorem quickMerge_extract_mesh_self (cache : Extracted) (t : Topology)
    (L : List Layer)
    (hmesh : ∀ l' ∈ L, l'.type = LayerType.mesh)
    (hsync : ∀ l' ∈ L, cache.mesh.lookup l'.name =
      some (extractLayerGeometry t l')) :
    quickMerge cache (extractGeoJSON t L) = cache := by
  have hfeat : (extractGeoJSON t L).feature = [] :=
    extract_foldl_feature t L emptyExtracted hmesh
  have hmem : ∀ p ∈ (extractGeoJSON t L).mesh,
      cache.mesh.lookup p.1 = some p.2 := by
    intro p hp
    rcases extract_foldl_mesh_mem t L emptyExtracted p hp with hin | hex
    · simp [emptyExtracted] at hin
    · obtain ⟨l', hl', hpe⟩ := hex
      rw [hpe]
      exact hsync l' hl'
  unfold quickMerge
  rw [hfeat, foldl_insertOverwrite_eq (extractGeoJSON t L).mesh
    cache.mesh hmem]
  rfl

/-- An element of the uncached-layer list over a visibility-filtered
    layer list is a visible member that is a mesh layer or lacks a cache
    entry. -/
theorem mem_uncached_visible (cache : Extracted) (L : List Layer)
    (l' : Layer)
    (h : l' ∈ uncachedLayersOf cache (L.filter (fun x => x.visible))) :
    l' ∈ L ∧ l'.visible = true ∧
      (l'.type = LayerType.mesh ∨
        hasGeom cache l'.type l'.name = false) := by
  unfold uncachedLayersOf at h
  obtain ⟨hmem, hpred⟩ := List.mem_filter.mp h
  obtain ⟨hL, hvis⟩ := List.mem_filter.mp hmem
  refine ⟨hL, hvis, ?_⟩
  have hpred' : (l'.type == LayerType.mesh ||
      !(hasGeom cache l'.type l'.name)) = true := hpred
  by_cases hm : l'.type = LayerType.mesh
  · exact Or.inl hm
  · right
    have hb : (l'.type == LayerType.mesh) = false :=
      beq_eq_false_iff_ne.mpr hm
    rw [hb] at hpred'
    simp at hpred'
    exact hpred'

/-- A visible member of a toggled layer list is a member of the
    original list (the toggled copy itself is invisible). -/
theorem mem_toggleOff_visible (layers : List Layer) (l x : Layer)
    (hx : x ∈ toggleOff layers l) (hv : x.visible = true) :
    x ∈ layers := by
  obtain ⟨y, hy, hmap⟩ := List.mem_map.mp hx
  by_cases hyl : y = l
  · rw [if_pos hyl] at hmap
    rw [← hmap] at hv
    simp at hv
  · rw [if_neg hyl] at hmap
    rw [← hmap]
    exact hy

/-- The toggled layer occurs in the toggled list only when its visible
    flag was false already. -/
theorem mem_toggleOff_self (layers : List Layer) (l : Layer)
    (hl : l ∈ toggleOff layers l) : l.visible = false := by
  obtain ⟨y, hy, hmap⟩ := List.mem_map.mp hl
  by_cases hyl : y = l
  · rw [if_pos hyl] at hmap
    rw [← hmap]
  · rw [if_neg hyl] at hmap
    exact absurd hmap hyl

/-- A prop update with unchanged topology reference, viewport and data
    reference, whose extraction merges back into the cache without
    changing it (in particular when nothing is extracted at all, or when
    only mesh layers whose cache entries are current are re-extracted),
    and whose bounds are in sync with the cache, changes nothing but the
    stored props. -/
theorem cwrp_noop (c : Component) (np : Props)
    (hw : np.width = c.props.width) (hh : np.height = c.props.height)
    (hdata : np.dataRef = c.props.dataRef)
    (htopo : np.topology = c.props.topology)
    (hcache : quickMerge c.state.cache
      (extractGeoJSON np.topology (extractedDuring c np)) = c.state.cache)
    (hbounds : c.state.bounds =
      concatAndComputeGeoJSONBounds c.state.cache) :
    componentWillReceiveProps c np = { c with props := np } := by
  have hdcond : ¬(np.dataRef ≠ c.props.dataRef) := fun hne => hne hdata
  have hs₁ : cwrpTopologyBranch c np = PendingState.empty ∨
      cwrpTopologyBranch c np =
        { PendingState.empty with cache := some c.state.cache } := by
    simp only [cwrpTopologyBranch]
    by_cases hemp : (extractedDuring c np).isEmpty = true
    · left
      rw [if_pos hemp]
    · right
      rw [if_neg hemp]
      have ht : (if np.topology = c.props.topology then np.topology
          else presimplify np.topology) = np.topology := if_pos htopo
      have hcb : cwrpCacheBase c np = c.state.cache := by
        unfold cwrpCacheBase
        exact if_pos htopo
      rw [ht, hcb, hcache, ← hbounds,
        if_pos (rfl : c.state.bounds = c.state.bounds)]
      rfl
  have hs₃ : cwrpDataBranch c np (cwrpTopologyBranch c np) =
      cwrpTopologyBranch c np := by
    unfold cwrpDataBranch
    rw [if_neg hdcond]
  rcases hs₁ with h₁ | h₁
  all_goals
    have hcond : ¬(np.width ≠ c.props.width ∨ np.height ≠ c.props.height ∨
        ((cwrpTopologyBranch c np).bounds.isSome = true)) := by
      rw [h₁, hw, hh]
      simp [PendingState.empty]
  all_goals
    have hr : cwrpResizeBranch c np (cwrpTopologyBranch c np) =
        (cwrpTopologyBranch c np, c.clipExtent, none) := by
      unfold cwrpResizeBranch
      rw [if_neg hcond]
  all_goals
    simp only [componentWillReceiveProps, hr]
    rw [hs₃, h₁]
    rfl

/-- Counterexample to claim C4: toggling the visible flag of the demo
    mesh layer to false and back, with the topology reference unchanged,
    makes the second prop update pass the mesh layer to geometry
    extraction again instead of reusing its cache entry. -/
theorem mesh_layer_toggle_reextracts :
    demoMeshLayer ∈ extractedDuring
      (componentWillReceiveProps (construct demoProps) demoPropsMeshOff)
      demoPropsMeshOn := by
  decide

/-- Claim C4 as amended, restricted to feature layers as the
    counterexample forces (mesh layers are always re-extracted): for
    every cached feature layer of a component, toggling that layer
    invisible and back, with the topology reference unchanged, passes
    that layer to no geometry extraction in either update and renders
    output identical to before the toggle.  The last three hypotheses
    are invariants of every reachable component state: the constructor
    extracts every layer of the props and computes bounds from that
    cache, and every update extracts exactly the visible layers it does
    not find cached before recomparing bounds, so in every reachable
    state all visible layers are cached, mesh entries hold the
    extraction of the current topology, and bounds match the cache. -/
theorem feature_layer_toggle_reuses_cache (c : Component) (l : Layer)
    (r₁ r₂ : Nat)
    (hl : l.type = LayerType.feature)
    (hcached : hasGeom c.state.cache LayerType.feature l.name = true)
    (hvisCached : ∀ l' ∈ c.props.layers, l'.visible = true →
      hasGeom c.state.cache l'.type l'.name = true)
    (hmeshSync : ∀ l' ∈ c.props.layers, l'.visible = true →
      l'.type = LayerType.mesh →
      c.state.cache.mesh.lookup l'.name =
        some (extractLayerGeometry c.props.topology l'))
    (hbounds : c.state.bounds =
      concatAndComputeGeoJSONBounds c.state.cache) :
    l ∉ extractedDuring c (togglePropsOff c.props l r₁) ∧
    l ∉ extractedDuring
        (componentWillReceiveProps c (togglePropsOff c.props l r₁))
        (withLayersRef c.props r₂) ∧
    renderLayers (componentWillReceiveProps
        (componentWillReceiveProps c (togglePropsOff c.props l r₁))
        (withLayersRef c.props r₂)) =
      renderLayers c := by
  have hfacts₁ : ∀ l' ∈ extractedDuring c (togglePropsOff c.props l r₁),
      l' ∈ c.props.layers ∧ l'.visible = true ∧
        (l'.type = LayerType.mesh ∨
          hasGeom c.state.cache l'.type l'.name = false) := by
    intro l' hl'
    unfold extractedDuring at hl'
    split at hl'
    · have hcb : cwrpCacheBase c (togglePropsOff c.props l r₁) =
          c.state.cache := by
        unfold cwrpCacheBase
        exact if_pos rfl
      rw [hcb] at hl'
      obtain ⟨hmemL, hvis, hdis⟩ := mem_uncached_visible c.state.cache
        (togglePropsOff c.props l r₁).layers l' hl'
      exact ⟨mem_toggleOff_visible c.props.layers l l' hmemL hvis,
        hvis, hdis⟩
    · cases hl'
  have hmesh₁ : ∀ l' ∈ extractedDuring c (togglePropsOff c.props l r₁),
      l'.type = LayerType.mesh := by
    intro l' hl'
    obtain ⟨hmem, hvis, hdis⟩ := hfacts₁ l' hl'
    rcases hdis with hm | hnot
    · exact hm
    · rw [hvisCached l' hmem hvis] at hnot
      simp at hnot
  have hsync₁ : ∀ l' ∈ extractedDuring c (togglePropsOff c.props l r₁),
      c.state.cache.mesh.lookup l'.name =
        some (extractLayerGeometry
          (togglePropsOff c.props l r₁).topology l') := by
    intro l' hl'
    obtain ⟨hmem, hvis, _⟩ := hfacts₁ l' hl'
    exact hmeshSync l' hmem hvis (hmesh₁ l' hl')
  have h1a : l ∉ extractedDuring c (togglePropsOff c.props l r₁) := by
    intro hmem
    obtain ⟨_, hvis, _⟩ := hfacts₁ l hmem
    unfold extractedDuring at hmem
    split at hmem
    · have hcb : cwrpCacheBase c (togglePropsOff c.props l r₁) =
          c.state.cache := by
        unfold cwrpCacheBase
        exact if_pos rfl
      rw [hcb] at hmem
      obtain ⟨hmemL, _, _⟩ := mem_uncached_visible c.state.cache
        (togglePropsOff c.props l r₁).layers l hmem
      rw [mem_toggleOff_self c.props.layers l hmemL] at hvis
      exact Bool.false_ne_true hvis
    · cases hmem
  have c₁eq : componentWillReceiveProps c (togglePropsOff c.props l r₁) =
      { c with props := togglePropsOff c.props l r₁ } :=
    cwrp_noop c (togglePropsOff c.props l r₁) rfl rfl rfl rfl
      (quickMerge_extract_mesh_self c.state.cache
        (togglePropsOff c.props l r₁).topology
        (extractedDuring c (togglePropsOff c.props l r₁)) hmesh₁ hsync₁)
      hbounds
  have hfacts₂ : ∀ l' ∈ extractedDuring
      { c with props := togglePropsOff c.props l r₁ }
      (withLayersRef c.props r₂),
      l' ∈ c.props.layers ∧ l'.visible = true ∧
        (l'.type = LayerType.mesh ∨
          hasGeom c.state.cache l'.type l'.name = false) := by
    intro l' hl'
    unfold extractedDuring at hl'
    split at hl'
    · have hcb : cwrpCacheBase
          { c with props := togglePropsOff c.props l r₁ }
          (withLayersRef c.props r₂) = c.state.cache := by
        unfold cwrpCacheBase
        exact if_pos rfl
      rw [hcb] at hl'
      exact mem_uncached_visible c.state.cache
        (withLayersRef c.props r₂).layers l' hl'
    · cases hl'
  have hmesh₂ : ∀ l' ∈ extractedDuring
      { c with props := togglePropsOff c.props l r₁ }
      (withLayersRef c.props r₂), l'.type = LayerType.mesh := by
    intro l' hl'
    obtain ⟨hmem, hvis, hdis⟩ := hfacts₂ l' hl'
    rcases hdis with hm | hnot
    · exact hm
    · rw [hvisCached l' hmem hvis] at hnot
      simp at hnot
  have hsync₂ : ∀ l' ∈ extractedDuring
      { c with props := togglePropsOff c.props l r₁ }
      (withLayersRef c.props r₂),
      c.state.cache.mesh.lookup l'.name =
        some (extractLayerGeometry (withLayersRef c.props r₂).topology l')
      := by
    intro l' hl'
    obtain ⟨hmem, hvis, _⟩ := hfacts₂ l' hl'
    exact hmeshSync l' hmem hvis (hmesh₂ l' hl')
  have h2a : l ∉ extractedDuring
      { c with props := togglePropsOff c.props l r₁ }
      (withLayersRef c.props r₂) := by
    intro hmem
    obtain ⟨_, _, hdis⟩ := hfacts₂ l hmem
    rcases hdis with hm | hnot
    · rw [hl] at hm
      exact absurd hm (by decide)
    · rw [hl, hcached] at hnot
      simp at hnot
  have c₂eq : componentWillReceiveProps
      { c with props := togglePropsOff c.props l r₁ }
      (withLayersRef c.props r₂) =
      { { c with props := togglePropsOff c.props l r₁ } with
          props := withLayersRef c.props r₂ } :=
    cwrp_noop { c with props := togglePropsOff c.props l r₁ }
      (withLayersRef c.props r₂) rfl rfl rfl rfl
      (quickMerge_extract_mesh_self c.state.cache
        (withLayersRef c.props r₂).topology
        (extractedDuring { c with props := togglePropsOff c.props l r₁ }
          (withLayersRef c.props r₂)) hmesh₂ hsync₂)
      hbounds
  refine ⟨h1a, ?_, ?_⟩
  · rw [c₁eq]
    exact h2a
  · rw [c₁eq, c₂eq]
    rfl

/-- Witness for the amended claim C4: toggling the cached feature layer
    of the mixed demo component, which also holds a visible mesh layer,
    off and back on. -/
theorem feature_layer_toggle_reuses_cache_witness :
    demoFeatureLayer.type = LayerType.feature ∧
    hasGeom (construct demoProps).state.cache LayerType.feature
      demoFeatureLayer.name = true ∧
    (∀ l' ∈ (construct demoProps).props.layers, l'.visible = true →
      hasGeom (construct demoProps).state.cache l'.type l'.name = true) ∧
    (∀ l' ∈ (construct demoProps).props.layers, l'.visible = true →
      l'.type = LayerType.mesh →
      (construct demoProps).state.cache.mesh.lookup l'.name =
        some (extractLayerGeometry (construct demoProps).props.topology
          l')) ∧
    (construct demoProps).state.bounds =
      concatAndComputeGeoJSONBounds (construct demoProps).state.cache ∧
    (demoFeatureLayer ∉ extractedDuring (construct demoProps)
      (togglePropsOff (construct demoProps).props demoFeatureLayer 21) ∧
     demoFeatureLayer ∉ extractedDuring
      (componentWillReceiveProps (construct demoProps)
        (togglePropsOff (construct demoProps).props demoFeatureLayer 21))
      (withLayersRef (construct demoProps).props 22) ∧
     renderLayers (componentWillReceiveProps
        (componentWillReceiveProps (construct demoProps)
          (togglePropsOff (construct demoProps).props demoFeatureLayer 21))
        (withLayersRef (construct demoProps).props 22)) =
      renderLayers (construct demoProps)) :=
  ⟨rfl, by decide, by decide, by decide, rfl,
   feature_layer_toggle_reuses_cache (construct demoProps)
     demoFeatureLayer 21 22 rfl (by decide) (by decide) (by decide) rfl⟩

end IhmeUI
